import Mathlib

/-!
Shallow embedding of the adsr-rs ADSR envelope generator (src/lib.rs).

Numeric values (Rust f32) are modelled as real numbers with exact
arithmetic.  A Rust assert! that fails (a panic) is modelled by the
Except monad: a function containing asserts returns Except Unit,
with Except.error () standing for the panic.  All other code is
translated directly, construct by construct.
-/

namespace AdsrRs

/-- Rust enum ADSREvent. -/
inductive ADSREvent where
  | NoteOn
  | NoteOff
deriving DecidableEq, Repr

/-- Rust enum ADSRPhase. -/
inductive ADSRPhase where
  | Attack
  | Decay
  | Sustain
  | Release
  | Silence
deriving DecidableEq, Repr

/-- Rust enum ADSRParamKind: a parameter kind carrying its new value. -/
inductive ADSRParamKind where
  | AttackTime (t : ℝ)
  | DecayTime (t : ℝ)
  | SustainLevel (l : ℝ)
  | ReleaseTime (t : ℝ)
  | AttackCurve (c : ℝ)
  | DecayCurve (c : ℝ)
  | ReleaseCurve (c : ℝ)

/-- Rust ADSRParamKind::is_valid: per-kind range check
(times nonnegative, sustain level in [0,1], curve factors in [-1,1]). -/
def ADSRParamKind.is_valid : ADSRParamKind → Prop
  | .AttackTime t => 0 ≤ t
  | .DecayTime t => 0 ≤ t
  | .SustainLevel l => 0 ≤ l ∧ l ≤ 1
  | .ReleaseTime t => 0 ≤ t
  | .AttackCurve c => -1 ≤ c ∧ c ≤ 1
  | .DecayCurve c => -1 ≤ c ∧ c ≤ 1
  | .ReleaseCurve c => -1 ≤ c ∧ c ≤ 1

noncomputable instance : DecidablePred ADSRParamKind.is_valid := fun k => by
  cases k <;> simp only [ADSRParamKind.is_valid] <;> infer_instance

/-- Rust struct ADSRParams. -/
structure ADSRParams where
  attack_time : ℝ
  decay_time : ℝ
  sustain_level : ℝ
  release_time : ℝ
  attack_curve : ℝ
  decay_curve : ℝ
  release_curve : ℝ

/-- Rust ADSRParams::new: asserts validity of every field, then constructs.
A failing assert is the Except.error case. -/
noncomputable def ADSRParams.new (attack_time decay_time sustain_level release_time
    attack_curve decay_curve release_curve : ℝ) : Except Unit ADSRParams :=
  if (ADSRParamKind.AttackTime attack_time).is_valid
      ∧ (ADSRParamKind.DecayTime decay_time).is_valid
      ∧ (ADSRParamKind.SustainLevel sustain_level).is_valid
      ∧ (ADSRParamKind.ReleaseTime release_time).is_valid
      ∧ (ADSRParamKind.AttackCurve attack_curve).is_valid
      ∧ (ADSRParamKind.DecayCurve decay_curve).is_valid
      ∧ (ADSRParamKind.ReleaseCurve release_curve).is_valid then
    Except.ok
      { attack_time := attack_time
        decay_time := decay_time
        sustain_level := sustain_level
        release_time := release_time
        attack_curve := attack_curve
        decay_curve := decay_curve
        release_curve := release_curve }
  else
    Except.error ()

/-- Rust ADSRParams::set_param: asserts param.is_valid() (panic on failure),
then overwrites the single field selected by the kind. -/
noncomputable def ADSRParams.set_param (p : ADSRParams) (param : ADSRParamKind) :
    Except Unit ADSRParams :=
  if param.is_valid then
    Except.ok (match param with
      | .AttackTime t => { p with attack_time := t }
      | .DecayTime t => { p with decay_time := t }
      | .SustainLevel l => { p with sustain_level := l }
      | .ReleaseTime t => { p with release_time := t }
      | .AttackCurve c => { p with attack_curve := c }
      | .DecayCurve c => { p with decay_curve := c }
      | .ReleaseCurve c => { p with release_curve := c })
  else
    Except.error ()

/-- Rust struct ADSR: the envelope state. -/
structure ADSR where
  params : ADSRParams
  note_on_duration : ℝ
  note_off_duration : ℝ
  last_gate_val : ℝ
  current_event : ADSREvent
  current_phase : ADSRPhase
  current_val : ℝ
  next_event : ADSREvent
  sample_rate : ℝ

/-- Rust ADSR::new(a, d, s, r, sample_rate): params built with all three
curve factors 0.0, everything else zeroed, phase Silence, event NoteOff;
sample_rate is stored with no validation at all. -/
noncomputable def ADSR.new (a d s r sample_rate : ℝ) : Except Unit ADSR :=
  (ADSRParams.new a d s r 0 0 0).map (fun p =>
    { params := p,
      note_on_duration := 0,
      note_off_duration := 0,
      last_gate_val := 0,
      current_event := ADSREvent.NoteOff,
      current_phase := ADSRPhase.Silence,
      current_val := 0,
      next_event := ADSREvent.NoteOff,
      sample_rate := sample_rate })

/-- Rust ADSR::set_param: delegates to ADSRParams::set_param. -/
noncomputable def ADSR.set_param (s : ADSR) (param : ADSRParamKind) :
    Except Unit ADSR :=
  (s.params.set_param param).map (fun p => { s with params := p })

/-- Rust ADSR::set_next_event. -/
def ADSR.set_next_event (s : ADSR) (event : ADSREvent) : ADSR :=
  { s with next_event := event }

/-- Rust ADSR::retrigger: zero both duration counters. -/
def ADSR.retrigger (s : ADSR) : ADSR :=
  { s with note_on_duration := 0, note_off_duration := 0 }

/-- Rust ADSR::next_phase: phase from the pending event, the elapsed
duration (in samples, divided by the sample rate) and the parameters. -/
noncomputable def ADSR.next_phase (s : ADSR) (next_event : ADSREvent) : ADSRPhase :=
  match next_event with
  | ADSREvent.NoteOn =>
      let t := s.note_on_duration / s.sample_rate
      if t < s.params.attack_time then ADSRPhase.Attack
      else if t < s.params.decay_time + s.params.attack_time then ADSRPhase.Decay
      else ADSRPhase.Sustain
  | ADSREvent.NoteOff =>
      let t := s.note_off_duration / s.sample_rate
      if t < s.params.release_time then ADSRPhase.Release
      else ADSRPhase.Silence

/-- The arithmetic body of Rust ADSR::curve_function (the expression after
its asserts): linear for curve_factor 0, otherwise the exponential curve
h * ((1/r - 1)^(2x/w) - 1) / ((1/r - 1)^2 - 1) with
r = -curve_factor * (0.5 - 0.005) + 0.5, both powers taken with powf. -/
noncomputable def ADSR.curveVal (x h w curve_factor : ℝ) : ℝ :=
  if curve_factor = 0 then
    h / w * x
  else
    let r := -curve_factor * (0.5 - 0.005) + 0.5
    h * ((1 / r - 1) ^ (2 * x / w) - 1) / ((1 / r - 1) ^ (2 : ℝ) - 1)

/-- Rust ADSR::curve_function: asserts x >= 0, h >= 0, w > 0 and
curve_factor in [-1, 1] (panic modelled as Except.error), then evaluates
the curve body. -/
noncomputable def ADSR.curve_function (x h w curve_factor : ℝ) : Except Unit ℝ :=
  if 0 ≤ x ∧ 0 ≤ h ∧ 0 < w ∧ -1 ≤ curve_factor ∧ curve_factor ≤ 1 then
    Except.ok (ADSR.curveVal x h w curve_factor)
  else
    Except.error ()

/-- Rust ADSR::next_val: the per-phase value computation. -/
noncomputable def ADSR.next_val (s : ADSR) (next_phase : ADSRPhase) : Except Unit ℝ :=
  match next_phase with
  | ADSRPhase.Attack =>
      let t := s.note_on_duration / s.sample_rate
      if 0 < s.params.decay_time then
        ADSR.curve_function t 1 s.params.attack_time s.params.attack_curve
      else
        ADSR.curve_function t s.params.sustain_level s.params.attack_time
          s.params.attack_curve
  | ADSRPhase.Decay =>
      let t := s.note_on_duration / s.sample_rate - s.params.attack_time
      (ADSR.curve_function (s.params.decay_time - t) (1 - s.params.sustain_level)
        s.params.decay_time s.params.decay_curve).map
        (fun c => c + s.params.sustain_level)
  | ADSRPhase.Sustain => Except.ok s.params.sustain_level
  | ADSRPhase.Release =>
      let t := s.note_off_duration / s.sample_rate
      ADSR.curve_function (s.params.release_time - t) s.last_gate_val
        s.params.release_time s.params.release_curve
  | ADSRPhase.Silence => Except.ok 0

/-- Rust ADSR::generate: consume the pending gate event, apply the
gate-transition side effects (retrigger on NoteOff to NoteOn, last_gate_val
capture on NoteOn to NoteOff), compute the next phase and value, apply the
duration-increment policy, and store the new state.  The returned pair is
(the produced sample, the updated state); a panic anywhere inside is the
Except.error case. -/
noncomputable def ADSR.generate (s : ADSR) : Except Unit (ℝ × ADSR) :=
  match s.next_event with
  | ADSREvent.NoteOn =>
      let s1 := if s.current_event = ADSREvent.NoteOff then s.retrigger else s
      let ph := s1.next_phase ADSREvent.NoteOn
      (s1.next_val ph).map (fun v =>
        let s2 := if s1.current_phase ≠ ADSRPhase.Sustain then
            { s1 with note_on_duration := s1.note_on_duration + 1 }
          else s1
        (v, { s2 with current_event := ADSREvent.NoteOn,
                      current_phase := ph,
                      current_val := v }))
  | ADSREvent.NoteOff =>
      let s1 := if s.current_event = ADSREvent.NoteOn then
          { s with last_gate_val := s.current_val }
        else s
      let ph := s1.next_phase ADSREvent.NoteOff
      (s1.next_val ph).map (fun v =>
        let s2 := if s1.current_phase ≠ ADSRPhase.Silence then
            { s1 with note_off_duration := s1.note_off_duration + 1 }
          else s1
        (v, { s2 with current_event := ADSREvent.NoteOff,
                      current_phase := ph,
                      current_val := v }))

/-- All seven fields of a parameter set pass their kind's range check. -/
def ADSRParams.Valid (p : ADSRParams) : Prop :=
  (ADSRParamKind.AttackTime p.attack_time).is_valid
    ∧ (ADSRParamKind.DecayTime p.decay_time).is_valid
    ∧ (ADSRParamKind.SustainLevel p.sustain_level).is_valid
    ∧ (ADSRParamKind.ReleaseTime p.release_time).is_valid
    ∧ (ADSRParamKind.AttackCurve p.attack_curve).is_valid
    ∧ (ADSRParamKind.DecayCurve p.decay_curve).is_valid
    ∧ (ADSRParamKind.ReleaseCurve p.release_curve).is_valid

/-- Operating invariant of an envelope: valid parameters, nonnegative
duration counters, a positive sample rate, and nonnegative current and
last-gate values.  Established by construction (with a positive sample
rate) and preserved by every operation. -/
def ADSR.Inv (s : ADSR) : Prop :=
  s.params.Valid
    ∧ 0 ≤ s.note_on_duration
    ∧ 0 ≤ s.note_off_duration
    ∧ 0 < s.sample_rate
    ∧ 0 ≤ s.current_val
    ∧ 0 ≤ s.last_gate_val

/-! ## Helper lemmas -/

lemma map_eq_ok_iff {α β : Type} (f : α → β) (x : Except Unit α) (b : β) :
    x.map f = Except.ok b ↔ ∃ a, x = Except.ok a ∧ f a = b := by
  cases x <;> simp [Except.map]

/-- The epsilon-protected ratio r stays strictly inside (0, 1) for every
curve factor in [-1, 1]. -/
lemma curve_r_bounds {k : ℝ} (hk1 : -1 ≤ k) (hk2 : k ≤ 1) :
    0 < -k * (0.5 - 0.005) + 0.5 ∧ -k * (0.5 - 0.005) + 0.5 < 1 := by
  constructor <;> nlinarith

lemma curve_base_pos {r : ℝ} (h0 : 0 < r) (h1 : r < 1) : 0 < 1 / r - 1 := by
  have hrw : 1 / r - 1 = (1 - r) / r := by field_simp
  rw [hrw]
  exact div_pos (by linarith) h0

/-- The base 1/r - 1 equals 1 only for curve factor 0, which takes the
linear branch instead. -/
lemma curve_base_ne_one {k : ℝ} (hk1 : -1 ≤ k) (hk2 : k ≤ 1) (hk : k ≠ 0) :
    1 / (-k * (0.5 - 0.005) + 0.5) - 1 ≠ 1 := by
  obtain ⟨hr0, _⟩ := curve_r_bounds hk1 hk2
  intro hcon
  have hne : -k * (0.5 - 0.005) + 0.5 ≠ 0 := ne_of_gt hr0
  have h2 : 1 / (-k * (0.5 - 0.005) + 0.5) = 2 := by linarith
  rw [div_eq_iff hne] at h2
  exact hk (by linarith)

/-- For a positive base b different from 1 and an exponent e in [0, 2],
the normalized ratio (b^e - 1)/(b^2 - 1) lies in [0, 1]. -/
lemma rpow_ratio_bounds {b e : ℝ} (hb : 0 < b) (hb1 : b ≠ 1)
    (he0 : 0 ≤ e) (he2 : e ≤ 2) :
    0 ≤ (b ^ e - 1) / (b ^ (2 : ℝ) - 1)
      ∧ (b ^ e - 1) / (b ^ (2 : ℝ) - 1) ≤ 1 := by
  rcases lt_or_gt_of_ne hb1 with hlt | hgt
  · have h2 : b ^ (2 : ℝ) < 1 := Real.rpow_lt_one hb.le hlt (by norm_num)
    have he : b ^ e ≤ 1 := Real.rpow_le_one hb.le hlt.le he0
    have h21 : b ^ (2 : ℝ) ≤ b ^ e :=
      Real.rpow_le_rpow_of_exponent_ge hb hlt.le he2
    have hrw : (b ^ e - 1) / (b ^ (2 : ℝ) - 1)
        = (1 - b ^ e) / (1 - b ^ (2 : ℝ)) := by
      rw [show b ^ e - 1 = -(1 - b ^ e) by ring,
        show b ^ (2 : ℝ) - 1 = -(1 - b ^ (2 : ℝ)) by ring, neg_div_neg_eq]
    rw [hrw]
    constructor
    · exact div_nonneg (by linarith) (by linarith)
    · rw [div_le_one (by linarith)]
      linarith
  · have h2 : 1 < b ^ (2 : ℝ) := by
      have h0 : b ^ (0 : ℝ) < b ^ (2 : ℝ) :=
        (Real.rpow_lt_rpow_left_iff hgt).mpr (by norm_num)
      simpa using h0
    have he1 : 1 ≤ b ^ e := by
      have h0 : b ^ (0 : ℝ) ≤ b ^ e :=
        Real.rpow_le_rpow_of_exponent_le hgt.le he0
      simpa using h0
    have hle : b ^ e ≤ b ^ (2 : ℝ) :=
      Real.rpow_le_rpow_of_exponent_le hgt.le he2
    constructor
    · exact div_nonneg (by linarith) (by linarith)
    · rw [div_le_one (by linarith)]
      linarith

/-- On [0, w] with valid arguments the curve body stays within [0, h]. -/
lemma curveVal_nonneg_and_le {x h w k : ℝ} (hx : 0 ≤ x) (hxw : x ≤ w)
    (hh : 0 ≤ h) (hw : 0 < w) (hk1 : -1 ≤ k) (hk2 : k ≤ 1) :
    0 ≤ ADSR.curveVal x h w k ∧ ADSR.curveVal x h w k ≤ h := by
  by_cases hk : k = 0
  · simp only [ADSR.curveVal, if_pos hk]
    constructor
    · positivity
    · rw [div_mul_eq_mul_div, div_le_iff₀ hw]
      nlinarith
  · simp only [ADSR.curveVal, if_neg hk]
    obtain ⟨hr0, hr1⟩ := curve_r_bounds hk1 hk2
    have hb : 0 < 1 / (-k * (0.5 - 0.005) + 0.5) - 1 := curve_base_pos hr0 hr1
    have hbne : 1 / (-k * (0.5 - 0.005) + 0.5) - 1 ≠ 1 :=
      curve_base_ne_one hk1 hk2 hk
    have he0 : 0 ≤ 2 * x / w := by positivity
    have he2 : 2 * x / w ≤ 2 := by
      rw [div_le_iff₀ hw]
      nlinarith
    obtain ⟨h1, h2⟩ := rpow_ratio_bounds hb hbne he0 he2
    rw [mul_div_assoc]
    constructor
    · exact mul_nonneg hh h1
    · calc h * _ ≤ h * 1 := mul_le_mul_of_nonneg_left h2 hh
        _ = h := mul_one h

/-- The curve body vanishes at x = 0. -/
lemma curveVal_apply_zero (h w k : ℝ) : ADSR.curveVal 0 h w k = 0 := by
  by_cases hk : k = 0
  · simp [ADSR.curveVal, hk]
  · simp [ADSR.curveVal, hk, Real.rpow_zero]

/-- The curve body hits h exactly at x = w. -/
lemma curveVal_apply_w {h w k : ℝ} (hw : 0 < w) (hk1 : -1 ≤ k) (hk2 : k ≤ 1) :
    ADSR.curveVal w h w k = h := by
  by_cases hk : k = 0
  · simp only [ADSR.curveVal, if_pos hk]
    field_simp
  · simp only [ADSR.curveVal, if_neg hk]
    obtain ⟨hr0, hr1⟩ := curve_r_bounds hk1 hk2
    have hb : 0 < 1 / (-k * (0.5 - 0.005) + 0.5) - 1 := curve_base_pos hr0 hr1
    have hbne : 1 / (-k * (0.5 - 0.005) + 0.5) - 1 ≠ 1 :=
      curve_base_ne_one hk1 hk2 hk
    have hexp : 2 * w / w = 2 := by field_simp
    rw [hexp]
    have hsq : (1 / (-k * (0.5 - 0.005) + 0.5) - 1) ^ (2 : ℝ) ≠ 1 := by
      rw [Real.rpow_two]
      intro hcon
      exact hbne (by nlinarith)
    rw [mul_div_assoc, div_self (sub_ne_zero.mpr hsq), mul_one]

/-- Per-phase value specification: under the operating invariant every
curve call made by next_val on the phase computed by next_phase passes
the curve asserts, and the produced value obeys the per-phase range. -/
lemma next_val_spec (s : ADSR) (e : ADSREvent)
    (hp : s.params.Valid) (hd : 0 ≤ s.note_on_duration)
    (hdo : 0 ≤ s.note_off_duration) (hsr : 0 < s.sample_rate)
    (hlgv : 0 ≤ s.last_gate_val) :
    ∃ v, s.next_val (s.next_phase e) = Except.ok v ∧ 0 ≤ v
      ∧ ((s.next_phase e = ADSRPhase.Attack ∨ s.next_phase e = ADSRPhase.Decay
          ∨ s.next_phase e = ADSRPhase.Sustain) → v ≤ 1)
      ∧ (s.next_phase e = ADSRPhase.Release → v ≤ s.last_gate_val)
      ∧ (s.next_phase e = ADSRPhase.Silence → v = 0) := by
  simp only [ADSRParams.Valid, ADSRParamKind.is_valid] at hp
  obtain ⟨hat, hdt, ⟨hsl0, hsl1⟩, hrt, ⟨hac1, hac2⟩, ⟨hdc1, hdc2⟩, ⟨hrc1, hrc2⟩⟩ := hp
  cases e with
  | NoteOn =>
    have ht : 0 ≤ s.note_on_duration / s.sample_rate := div_nonneg hd hsr.le
    simp only [ADSR.next_phase]
    by_cases h1 : s.note_on_duration / s.sample_rate < s.params.attack_time
    · rw [if_pos h1]
      have hw : 0 < s.params.attack_time := lt_of_le_of_lt ht h1
      simp only [ADSR.next_val]
      by_cases hdt0 : 0 < s.params.decay_time
      · rw [if_pos hdt0]
        obtain ⟨hv0, hv1⟩ :=
          curveVal_nonneg_and_le ht h1.le zero_le_one hw hac1 hac2
        refine ⟨_, ?_, hv0, fun _ => hv1, ?_, ?_⟩
        · simp only [ADSR.curve_function]
          rw [if_pos ⟨ht, zero_le_one, hw, hac1, hac2⟩]
        · intro hcon; simp at hcon
        · intro hcon; simp at hcon
      · rw [if_neg hdt0]
        obtain ⟨hv0, hv1⟩ :=
          curveVal_nonneg_and_le ht h1.le hsl0 hw hac1 hac2
        refine ⟨_, ?_, hv0, fun _ => le_trans hv1 hsl1, ?_, ?_⟩
        · simp only [ADSR.curve_function]
          rw [if_pos ⟨ht, hsl0, hw, hac1, hac2⟩]
        · intro hcon; simp at hcon
        · intro hcon; simp at hcon
    · rw [if_neg h1]
      have hta : s.params.attack_time ≤ s.note_on_duration / s.sample_rate :=
        not_lt.mp h1
      by_cases h2 : s.note_on_duration / s.sample_rate
          < s.params.decay_time + s.params.attack_time
      · rw [if_pos h2]
        have hwd : 0 < s.params.decay_time := by linarith
        have hx0 : 0 ≤ s.params.decay_time
            - (s.note_on_duration / s.sample_rate - s.params.attack_time) := by
          linarith
        have hxw : s.params.decay_time
            - (s.note_on_duration / s.sample_rate - s.params.attack_time)
            ≤ s.params.decay_time := by linarith
        have hh1 : (0 : ℝ) ≤ 1 - s.params.sustain_level := by linarith
        obtain ⟨hv0, hv1⟩ :=
          curveVal_nonneg_and_le hx0 hxw hh1 hwd hdc1 hdc2
        refine ⟨ADSR.curveVal
            (s.params.decay_time
              - (s.note_on_duration / s.sample_rate - s.params.attack_time))
            (1 - s.params.sustain_level) s.params.decay_time s.params.decay_curve
            + s.params.sustain_level,
          ?_, by linarith, fun _ => by linarith, ?_, ?_⟩
        · simp only [ADSR.next_val, ADSR.curve_function]
          rw [if_pos ⟨hx0, by linarith, hwd, hdc1, hdc2⟩]
          simp [Except.map]
        · intro hcon; simp at hcon
        · intro hcon; simp at hcon
      · rw [if_neg h2]
        refine ⟨s.params.sustain_level, rfl, hsl0, fun _ => hsl1, ?_, ?_⟩
        · intro hcon; simp at hcon
        · intro hcon; simp at hcon
  | NoteOff =>
    have ht : 0 ≤ s.note_off_duration / s.sample_rate := div_nonneg hdo hsr.le
    simp only [ADSR.next_phase]
    by_cases h1 : s.note_off_duration / s.sample_rate < s.params.release_time
    · rw [if_pos h1]
      have hw : 0 < s.params.release_time := lt_of_le_of_lt ht h1
      have hx0 : 0 ≤ s.params.release_time
          - s.note_off_duration / s.sample_rate := by linarith
      have hxw : s.params.release_time - s.note_off_duration / s.sample_rate
          ≤ s.params.release_time := by linarith
      obtain ⟨hv0, hv1⟩ :=
        curveVal_nonneg_and_le hx0 hxw hlgv hw hrc1 hrc2
      refine ⟨_, ?_, hv0, ?_, fun _ => hv1, ?_⟩
      · simp only [ADSR.next_val, ADSR.curve_function]
        rw [if_pos ⟨hx0, hlgv, hw, hrc1, hrc2⟩]
      · intro hcon
        rcases hcon with h | h | h <;> simp at h
      · intro hcon; simp at hcon
    · rw [if_neg h1]
      refine ⟨0, rfl, le_refl 0, ?_, ?_, fun _ => rfl⟩
      · intro hcon
        rcases hcon with h | h | h <;> simp at h
      · intro hcon; simp at hcon

lemma generate_on_case (s1 : ADSR)
    (hp : s1.params.Valid) (hd : 0 ≤ s1.note_on_duration)
    (hdo : 0 ≤ s1.note_off_duration) (hsr : 0 < s1.sample_rate)
    (hlgv : 0 ≤ s1.last_gate_val) :
    ∃ v s', (s1.next_val (s1.next_phase ADSREvent.NoteOn)).map (fun v =>
        let s2 := if s1.current_phase ≠ ADSRPhase.Sustain then
            { s1 with note_on_duration := s1.note_on_duration + 1 }
          else s1
        (v, { s2 with current_event := ADSREvent.NoteOn,
                      current_phase := s1.next_phase ADSREvent.NoteOn,
                      current_val := v })) = Except.ok (v, s') ∧ s'.Inv ∧ 0 ≤ v
      ∧ ((s'.current_phase = ADSRPhase.Attack ∨ s'.current_phase = ADSRPhase.Decay
          ∨ s'.current_phase = ADSRPhase.Sustain) → v ≤ 1)
      ∧ (s'.current_phase = ADSRPhase.Release → v ≤ s'.last_gate_val)
      ∧ (s'.current_phase = ADSRPhase.Silence → v = 0) := by
  obtain ⟨v, hok, hv0, hv1, hvr, hvs⟩ :=
    next_val_spec s1 ADSREvent.NoteOn hp hd hdo hsr hlgv
  rw [hok]
  simp only [Except.map]
  by_cases hph : s1.current_phase ≠ ADSRPhase.Sustain
  · rw [if_pos hph]
    refine ⟨v, _, rfl, ?_, hv0, hv1, hvr, hvs⟩
    unfold ADSR.Inv
    exact ⟨hp, show 0 ≤ s1.note_on_duration + 1 by linarith, hdo, hsr, hv0, hlgv⟩
  · rw [if_neg hph]
    refine ⟨v, _, rfl, ?_, hv0, hv1, hvr, hvs⟩
    unfold ADSR.Inv
    exact ⟨hp, hd, hdo, hsr, hv0, hlgv⟩

lemma generate_off_case (s1 : ADSR)
    (hp : s1.params.Valid) (hd : 0 ≤ s1.note_on_duration)
    (hdo : 0 ≤ s1.note_off_duration) (hsr : 0 < s1.sample_rate)
    (hlgv : 0 ≤ s1.last_gate_val) :
    ∃ v s', (s1.next_val (s1.next_phase ADSREvent.NoteOff)).map (fun v =>
        let s2 := if s1.current_phase ≠ ADSRPhase.Silence then
            { s1 with note_off_duration := s1.note_off_duration + 1 }
          else s1
        (v, { s2 with current_event := ADSREvent.NoteOff,
                      current_phase := s1.next_phase ADSREvent.NoteOff,
                      current_val := v })) = Except.ok (v, s') ∧ s'.Inv ∧ 0 ≤ v
      ∧ ((s'.current_phase = ADSRPhase.Attack ∨ s'.current_phase = ADSRPhase.Decay
          ∨ s'.current_phase = ADSRPhase.Sustain) → v ≤ 1)
      ∧ (s'.current_phase = ADSRPhase.Release → v ≤ s'.last_gate_val)
      ∧ (s'.current_phase = ADSRPhase.Silence → v = 0) := by
  obtain ⟨v, hok, hv0, hv1, hvr, hvs⟩ :=
    next_val_spec s1 ADSREvent.NoteOff hp hd hdo hsr hlgv
  rw [hok]
  simp only [Except.map]
  by_cases hph : s1.current_phase ≠ ADSRPhase.Silence
  · rw [if_pos hph]
    refine ⟨v, _, rfl, ?_, hv0, hv1, hvr, hvs⟩
    unfold ADSR.Inv
    exact ⟨hp, hd, show 0 ≤ s1.note_off_duration + 1 by linarith, hsr, hv0, hlgv⟩
  · rw [if_neg hph]
    refine ⟨v, _, rfl, ?_, hv0, hv1, hvr, hvs⟩
    unfold ADSR.Inv
    exact ⟨hp, hd, hdo, hsr, hv0, hlgv⟩

/-- Under the operating invariant a generate call always succeeds (no
assert inside curve_function can fire), preserves the invariant, and
produces a value within the per-phase range. -/
lemma generate_spec (s : ADSR) (hs : s.Inv) :
    ∃ v s', s.generate = Except.ok (v, s') ∧ s'.Inv ∧ 0 ≤ v
      ∧ ((s'.current_phase = ADSRPhase.Attack ∨ s'.current_phase = ADSRPhase.Decay
          ∨ s'.current_phase = ADSRPhase.Sustain) → v ≤ 1)
      ∧ (s'.current_phase = ADSRPhase.Release → v ≤ s'.last_gate_val)
      ∧ (s'.current_phase = ADSRPhase.Silence → v = 0) := by
  obtain ⟨hp, hd, hdo, hsr, hcv, hlgv⟩ := hs
  cases hne : s.next_event with
  | NoteOn =>
    simp only [ADSR.generate, hne]
    by_cases hce : s.current_event = ADSREvent.NoteOff
    · rw [if_pos hce]
      exact generate_on_case s.retrigger hp (le_refl 0) (le_refl 0) hsr hlgv
    · rw [if_neg hce]
      exact generate_on_case s hp hd hdo hsr hlgv
  | NoteOff =>
    simp only [ADSR.generate, hne]
    by_cases hce : s.current_event = ADSREvent.NoteOn
    · rw [if_pos hce]
      exact generate_off_case
        { s with last_gate_val := s.current_val,
                 next_event := ADSREvent.NoteOff } hp hd hdo hsr hcv
    · rw [if_neg hce]
      exact generate_off_case s hp hd hdo hsr hlgv

/-! ## Concrete example states used by the witness theorems -/

/-- A valid parameter set: 1 s attack, 1 s decay, sustain 1/2, 1 s release,
all curve factors 0. -/
noncomputable def paramsEx : ADSRParams :=
  { attack_time := 1, decay_time := 1, sustain_level := 1/2, release_time := 1,
    attack_curve := 0, decay_curve := 0, release_curve := 0 }

/-- A held-NoteOn state at the first attack sample (sample rate 1 Hz). -/
noncomputable def sAttack : ADSR :=
  { params := paramsEx, note_on_duration := 0, note_off_duration := 0,
    last_gate_val := 0, current_event := ADSREvent.NoteOn,
    current_phase := ADSRPhase.Attack, current_val := 0,
    next_event := ADSREvent.NoteOn, sample_rate := 1 }

/-- The state produced by one generate call on sAttack. -/
noncomputable def sAttackNext : ADSR :=
  { sAttack with note_on_duration := 1 }

lemma sAttack_inv : ADSR.Inv sAttack := by
  refine ⟨⟨?_, ?_, ?_, ?_, ?_, ?_, ?_⟩, ?_, ?_, ?_, ?_, ?_⟩ <;>
    norm_num [sAttack, paramsEx, ADSRParamKind.is_valid]

lemma sAttack_gen : sAttack.generate = Except.ok (0, sAttackNext) := by
  norm_num [ADSR.generate, sAttack, sAttackNext, paramsEx, ADSR.next_phase,
    ADSR.next_val, ADSR.curve_function, ADSR.curveVal, ADSR.retrigger,
    Except.map]
  simp

/-- A held-NoteOn state that has reached Sustain (t = 5 s past both phases). -/
noncomputable def sSustain : ADSR :=
  { params := paramsEx, note_on_duration := 5, note_off_duration := 0,
    last_gate_val := 0, current_event := ADSREvent.NoteOn,
    current_phase := ADSRPhase.Sustain, current_val := 1/2,
    next_event := ADSREvent.NoteOn, sample_rate := 1 }

lemma sSustain_phase : sSustain.next_phase ADSREvent.NoteOn = ADSRPhase.Sustain := by
  norm_num [ADSR.next_phase, sSustain, paramsEx]

/-- A state holding value 1/4 mid-envelope whose pending event is NoteOff. -/
noncomputable def sRel : ADSR :=
  { params := paramsEx, note_on_duration := 2, note_off_duration := 0,
    last_gate_val := 0, current_event := ADSREvent.NoteOn,
    current_phase := ADSRPhase.Decay, current_val := 1/4,
    next_event := ADSREvent.NoteOff, sample_rate := 1 }

/-- The state produced by one generate call on sRel: last_gate_val captured
from current_val, release entered, value 1/4 at the start of release. -/
noncomputable def sRelNext : ADSR :=
  { sRel with
      last_gate_val := 1/4
      note_off_duration := 1
      current_event := ADSREvent.NoteOff
      current_phase := ADSRPhase.Release
      current_val := 1/4 }

lemma sRel_gen : sRel.generate = Except.ok (1/4, sRelNext) := by
  norm_num [ADSR.generate, sRel, sRelNext, paramsEx, ADSR.next_phase,
    ADSR.next_val, ADSR.curve_function, ADSR.curveVal, Except.map]
  simp

/-- A mid-release state (pending NoteOn retrigger) with stale counters. -/
noncomputable def sRetr : ADSR :=
  { params := paramsEx, note_on_duration := 7, note_off_duration := 3,
    last_gate_val := 1/2, current_event := ADSREvent.NoteOff,
    current_phase := ADSRPhase.Release, current_val := 1/3,
    next_event := ADSREvent.NoteOn, sample_rate := 1 }

/-! ## Claim theorems -/

/-- C1 counterexample: with a valid parameter set, calling set_param with
the out-of-range value AttackTime(-1) does not complete as a no-op that
leaves the parameter set in place and reports a failure value: the
validation assert panics (Except.error), so the call never returns to the
caller at all. -/
theorem c1_counterexample :
    paramsEx.set_param (ADSRParamKind.AttackTime (-1)) ≠ Except.ok paramsEx
      ∧ paramsEx.set_param (ADSRParamKind.AttackTime (-1)) = Except.error () := by
  have hk : ¬ (ADSRParamKind.AttackTime (-1 : ℝ)).is_valid := by
    simp only [ADSRParamKind.is_valid]
    norm_num
  constructor
  · simp [ADSRParams.set_param, hk]
  · simp [ADSRParams.set_param, hk]

/-- C1 (amended): calling set_param with an out-of-range value fails the
validation assert before any field of the Parameter Set is written, so the
stored parameters are never partially updated or corrupted; however the
failure is a panic that propagates out of the call (modelled as
Except.error), not a recoverable failure value returned to a caller that
continues running.  This holds both for ADSRParams::set_param and for
ADSR::set_param. -/
theorem c1_set_param_invalid_panics (k : ADSRParamKind) (hk : ¬ k.is_valid) :
    (∀ p : ADSRParams, p.set_param k = Except.error ())
      ∧ (∀ s : ADSR, s.set_param k = Except.error ()) := by
  constructor
  · intro p
    simp [ADSRParams.set_param, hk]
  · intro s
    simp [ADSR.set_param, ADSRParams.set_param, hk, Except.map]

/-- C1 witness: the amended theorem applied to the concrete invalid update
DecayTime(-2). -/
theorem c1_witness :
    ¬ (ADSRParamKind.DecayTime (-2 : ℝ)).is_valid
      ∧ paramsEx.set_param (ADSRParamKind.DecayTime (-2)) = Except.error () := by
  have hk : ¬ (ADSRParamKind.DecayTime (-2 : ℝ)).is_valid := by
    simp only [ADSRParamKind.is_valid]
    norm_num
  exact ⟨hk, (c1_set_param_invalid_panics _ hk).1 paramsEx⟩

/-- C8: for every h ≥ 0, w > 0 and curve factor in [-1, 1] the curve
function passes its asserts at both endpoints and satisfies the boundary
identities curve(0, h, w, k) = 0 and curve(w, h, w, k) = h (exactly, in
the real-number model). -/
theorem c8_curve_boundary (h w k : ℝ) (hh : 0 ≤ h) (hw : 0 < w)
    (hk1 : -1 ≤ k) (hk2 : k ≤ 1) :
    ADSR.curve_function 0 h w k = Except.ok 0
      ∧ ADSR.curve_function w h w k = Except.ok h := by
  constructor
  · simp only [ADSR.curve_function]
    rw [if_pos ⟨le_refl 0, hh, hw, hk1, hk2⟩, curveVal_apply_zero]
  · simp only [ADSR.curve_function]
    rw [if_pos ⟨hw.le, hh, hw, hk1, hk2⟩, curveVal_apply_w hw hk1 hk2]

/-- C8 witness: the boundary identities at the near-singular extreme
k = 1 with h = 3/4 and w = 2. -/
theorem c8_witness :
    ((0 : ℝ) ≤ 3/4 ∧ (0 : ℝ) < 2 ∧ (-1 : ℝ) ≤ 1 ∧ (1 : ℝ) ≤ 1)
      ∧ ADSR.curve_function 0 (3/4) 2 1 = Except.ok 0
      ∧ ADSR.curve_function 2 (3/4) 2 1 = Except.ok (3/4) := by
  refine ⟨by norm_num, ?_, ?_⟩
  · exact (c8_curve_boundary (3/4) 2 1 (by norm_num) (by norm_num)
      (by norm_num) (by norm_num)).1
  · exact (c8_curve_boundary (3/4) 2 1 (by norm_num) (by norm_num)
      (by norm_num) (by norm_num)).2

/-- C10: the five-argument constructor stores all three curve factors as 0,
so curve evaluation takes the linear branch until a curve parameter is set;
sample_rate is stored unchanged with no validation (any real value, even a
nonpositive one, is accepted). -/
theorem c10_new_linear_curves (a d sl r sr : ℝ)
    (ha : (ADSRParamKind.AttackTime a).is_valid)
    (hd : (ADSRParamKind.DecayTime d).is_valid)
    (hsl : (ADSRParamKind.SustainLevel sl).is_valid)
    (hr : (ADSRParamKind.ReleaseTime r).is_valid) :
    ∃ s0, ADSR.new a d sl r sr = Except.ok s0
      ∧ s0.params.attack_curve = 0 ∧ s0.params.decay_curve = 0
      ∧ s0.params.release_curve = 0 ∧ s0.sample_rate = sr
      ∧ (∀ x hh w : ℝ, ADSR.curveVal x hh w 0 = hh / w * x) := by
  have hc : (ADSRParamKind.AttackCurve (0 : ℝ)).is_valid := ⟨by norm_num, by norm_num⟩
  have hc2 : (ADSRParamKind.DecayCurve (0 : ℝ)).is_valid := ⟨by norm_num, by norm_num⟩
  have hc3 : (ADSRParamKind.ReleaseCurve (0 : ℝ)).is_valid := ⟨by norm_num, by norm_num⟩
  refine ⟨{ params := { attack_time := a
                        decay_time := d
                        sustain_level := sl
                        release_time := r
                        attack_curve := 0
                        decay_curve := 0
                        release_curve := 0 }
            note_on_duration := 0
            note_off_duration := 0
            last_gate_val := 0
            current_event := ADSREvent.NoteOff
            current_phase := ADSRPhase.Silence
            current_val := 0
            next_event := ADSREvent.NoteOff
            sample_rate := sr },
    ?_, rfl, rfl, rfl, rfl, fun x hh w => by simp [ADSR.curveVal]⟩
  simp only [ADSR.new, ADSRParams.new]
  rw [if_pos ⟨ha, hd, hsl, hr, hc, hc2, hc3⟩]
  rfl

/-- C10 witness: construction with valid envelope parameters and the
unvalidated sample rate -2. -/
theorem c10_witness :
    ((ADSRParamKind.AttackTime (1/10 : ℝ)).is_valid
        ∧ (ADSRParamKind.DecayTime (1/5 : ℝ)).is_valid
        ∧ (ADSRParamKind.SustainLevel (1/2 : ℝ)).is_valid
        ∧ (ADSRParamKind.ReleaseTime (3/10 : ℝ)).is_valid)
      ∧ ∃ s0, ADSR.new (1/10) (1/5) (1/2) (3/10) (-2) = Except.ok s0
          ∧ s0.params.attack_curve = 0 ∧ s0.params.decay_curve = 0
          ∧ s0.params.release_curve = 0 ∧ s0.sample_rate = -2
          ∧ (∀ x hh w : ℝ, ADSR.curveVal x hh w 0 = hh / w * x) := by
  have h1 : (ADSRParamKind.AttackTime (1/10 : ℝ)).is_valid :=
    show (0 : ℝ) ≤ 1/10 by norm_num
  have h2 : (ADSRParamKind.DecayTime (1/5 : ℝ)).is_valid :=
    show (0 : ℝ) ≤ 1/5 by norm_num
  have h3 : (ADSRParamKind.SustainLevel (1/2 : ℝ)).is_valid := ⟨by norm_num, by norm_num⟩
  have h4 : (ADSRParamKind.ReleaseTime (3/10 : ℝ)).is_valid :=
    show (0 : ℝ) ≤ 3/10 by norm_num
  exact ⟨⟨h1, h2, h3, h4⟩, c10_new_linear_curves (1/10) (1/5) (1/2) (3/10) (-2) h1 h2 h3 h4⟩

/-- C3: once the invariant holds (valid parameters, nonnegative counters
and values, positive sample rate), generate cannot fail: every call it
makes into curve_function passes the asserts, the call returns ok, and the
invariant is preserved; the invariant is established by a construction
with in-range parameters and a positive sample rate, and preserved by
set_next_event and by every successful set_param. -/
theorem c3_generate_never_fails :
    (∀ s : ADSR, s.Inv → ∃ v s', s.generate = Except.ok (v, s') ∧ s'.Inv)
      ∧ (∀ a d sl r sr : ℝ,
          (ADSRParamKind.AttackTime a).is_valid →
          (ADSRParamKind.DecayTime d).is_valid →
          (ADSRParamKind.SustainLevel sl).is_valid →
          (ADSRParamKind.ReleaseTime r).is_valid → 0 < sr →
          ∃ s0, ADSR.new a d sl r sr = Except.ok s0 ∧ s0.Inv)
      ∧ (∀ (s : ADSR) (e : ADSREvent), s.Inv → (s.set_next_event e).Inv)
      ∧ (∀ (s : ADSR) (k : ADSRParamKind) (s2 : ADSR),
          s.Inv → s.set_param k = Except.ok s2 → s2.Inv) := by
  refine ⟨?_, ?_, ?_, ?_⟩
  · intro s hs
    obtain ⟨v, s', h1, h2, _⟩ := generate_spec s hs
    exact ⟨v, s', h1, h2⟩
  · intro a d sl r sr ha hd hsl hr hsr
    have hc : (ADSRParamKind.AttackCurve (0 : ℝ)).is_valid := ⟨by norm_num, by norm_num⟩
    have hc2 : (ADSRParamKind.DecayCurve (0 : ℝ)).is_valid := ⟨by norm_num, by norm_num⟩
    have hc3 : (ADSRParamKind.ReleaseCurve (0 : ℝ)).is_valid := ⟨by norm_num, by norm_num⟩
    refine ⟨{ params := { attack_time := a
                          decay_time := d
                          sustain_level := sl
                          release_time := r
                          attack_curve := 0
                          decay_curve := 0
                          release_curve := 0 }
              note_on_duration := 0
              note_off_duration := 0
              last_gate_val := 0
              current_event := ADSREvent.NoteOff
              current_phase := ADSRPhase.Silence
              current_val := 0
              next_event := ADSREvent.NoteOff
              sample_rate := sr }, ?_, ?_⟩
    · simp only [ADSR.new, ADSRParams.new]
      rw [if_pos ⟨ha, hd, hsl, hr, hc, hc2, hc3⟩]
      rfl
    · exact ⟨⟨ha, hd, hsl, hr, hc, hc2, hc3⟩, le_refl 0, le_refl 0, hsr,
        le_refl 0, le_refl 0⟩
  · intro s e hs
    exact hs
  · intro s k s2 hs hok
    obtain ⟨hp, hd, hdo, hsr, hcv, hlgv⟩ := hs
    obtain ⟨h1, h2, h3, h4, h5, h6, h7⟩ := hp
    simp only [ADSR.set_param, ADSRParams.set_param] at hok
    by_cases hkv : k.is_valid
    · rw [if_pos hkv] at hok
      simp only [Except.map] at hok
      injection hok with hok2
      subst hok2
      cases k with
      | AttackTime t => exact ⟨⟨hkv, h2, h3, h4, h5, h6, h7⟩, hd, hdo, hsr, hcv, hlgv⟩
      | DecayTime t => exact ⟨⟨h1, hkv, h3, h4, h5, h6, h7⟩, hd, hdo, hsr, hcv, hlgv⟩
      | SustainLevel l => exact ⟨⟨h1, h2, hkv, h4, h5, h6, h7⟩, hd, hdo, hsr, hcv, hlgv⟩
      | ReleaseTime t => exact ⟨⟨h1, h2, h3, hkv, h5, h6, h7⟩, hd, hdo, hsr, hcv, hlgv⟩
      | AttackCurve c => exact ⟨⟨h1, h2, h3, h4, hkv, h6, h7⟩, hd, hdo, hsr, hcv, hlgv⟩
      | DecayCurve c => exact ⟨⟨h1, h2, h3, h4, h5, hkv, h7⟩, hd, hdo, hsr, hcv, hlgv⟩
      | ReleaseCurve c => exact ⟨⟨h1, h2, h3, h4, h5, h6, hkv⟩, hd, hdo, hsr, hcv, hlgv⟩
    · rw [if_neg hkv] at hok
      simp [Except.map] at hok

/-- C3 witness: the first conjunct of the theorem applied to the concrete
invariant-satisfying state sAttack. -/
theorem c3_witness :
    ADSR.Inv sAttack
      ∧ ∃ v s', sAttack.generate = Except.ok (v, s') ∧ ADSR.Inv s' :=
  ⟨sAttack_inv, c3_generate_never_fails.1 sAttack sAttack_inv⟩

/-- C4: for every invariant-satisfying state, the value produced by a
generate call lies in [0, 1] when the new phase is Attack, Decay or
Sustain, in [0, last_gate_val] when it is Release, and is exactly 0 in
Silence. -/
theorem c4_output_range (s : ADSR) (v : ℝ) (s2 : ADSR) (hs : s.Inv)
    (hgen : s.generate = Except.ok (v, s2)) :
    ((s2.current_phase = ADSRPhase.Attack ∨ s2.current_phase = ADSRPhase.Decay
        ∨ s2.current_phase = ADSRPhase.Sustain) → 0 ≤ v ∧ v ≤ 1)
      ∧ (s2.current_phase = ADSRPhase.Release → 0 ≤ v ∧ v ≤ s2.last_gate_val)
      ∧ (s2.current_phase = ADSRPhase.Silence → v = 0) := by
  obtain ⟨v0, s0, h1, _, hv0, hv1, hvr, hvs⟩ := generate_spec s hs
  rw [hgen] at h1
  injection h1 with h2
  injection h2 with hv hs2
  subst hv
  subst hs2
  exact ⟨fun h => ⟨hv0, hv1 h⟩, fun h => ⟨hv0, hvr h⟩, hvs⟩

/-- C4 witness: the theorem applied to the concrete attack-phase step
sAttack, whose produced value 0 lies in [0, 1]. -/
theorem c4_witness :
    ADSR.Inv sAttack ∧ sAttack.generate = Except.ok (0, sAttackNext)
      ∧ (((sAttackNext.current_phase = ADSRPhase.Attack
            ∨ sAttackNext.current_phase = ADSRPhase.Decay
            ∨ sAttackNext.current_phase = ADSRPhase.Sustain) →
            (0 : ℝ) ≤ 0 ∧ (0 : ℝ) ≤ 1)
          ∧ (sAttackNext.current_phase = ADSRPhase.Release →
              (0 : ℝ) ≤ 0 ∧ (0 : ℝ) ≤ sAttackNext.last_gate_val)
          ∧ (sAttackNext.current_phase = ADSRPhase.Silence → (0 : ℝ) = 0)) :=
  ⟨sAttack_inv, sAttack_gen,
    c4_output_range sAttack 0 sAttackNext sAttack_inv sAttack_gen⟩

/-- C2: the phase stored by a generate call is exactly the specified
function of the pending gate event, the elapsed duration and the
parameters: under a held NoteOn, Attack before attack_time, then Decay
before attack_time + decay_time, else Sustain; under NoteOff, Release
before release_time, else Silence; and with attack_time = decay_time = 0 a
NoteOn sample resolves directly to Sustain. -/
theorem c2_phase_determination (s : ADSR) :
    (s.next_event = ADSREvent.NoteOn → s.current_event = ADSREvent.NoteOn →
        ∀ v s2, s.generate = Except.ok (v, s2) →
          s2.current_phase =
            (if s.note_on_duration / s.sample_rate < s.params.attack_time then
              ADSRPhase.Attack
            else if s.note_on_duration / s.sample_rate
                < s.params.attack_time + s.params.decay_time then ADSRPhase.Decay
            else ADSRPhase.Sustain))
      ∧ (s.next_event = ADSREvent.NoteOff →
          ∀ v s2, s.generate = Except.ok (v, s2) →
            s2.current_phase =
              (if s.note_off_duration / s.sample_rate < s.params.release_time
                then ADSRPhase.Release
                else ADSRPhase.Silence))
      ∧ (s.next_event = ADSREvent.NoteOn → s.params.attack_time = 0 →
          s.params.decay_time = 0 → 0 ≤ s.note_on_duration / s.sample_rate →
          ∀ v s2, s.generate = Except.ok (v, s2) →
            s2.current_phase = ADSRPhase.Sustain) := by
  refine ⟨?_, ?_, ?_⟩
  · intro h2 h1 v s2 hgen
    have h1n : ¬ (s.current_event = ADSREvent.NoteOff) := by
      rw [h1]
      simp
    simp only [ADSR.generate, h2, if_neg h1n] at hgen
    rcases (map_eq_ok_iff _ _ _).mp hgen with ⟨v0, hok, hpair⟩
    injection hpair with hv hs2
    subst hs2
    show ADSR.next_phase s ADSREvent.NoteOn = _
    simp only [ADSR.next_phase]
    rw [add_comm s.params.attack_time s.params.decay_time]
  · intro h2 v s2 hgen
    simp only [ADSR.generate, h2] at hgen
    by_cases hce : s.current_event = ADSREvent.NoteOn
    · rw [if_pos hce] at hgen
      rcases (map_eq_ok_iff _ _ _).mp hgen with ⟨v0, hok, hpair⟩
      injection hpair with hv hs2
      subst hs2
      rfl
    · rw [if_neg hce] at hgen
      rcases (map_eq_ok_iff _ _ _).mp hgen with ⟨v0, hok, hpair⟩
      injection hpair with hv hs2
      subst hs2
      rfl
  · intro h2 hat hdt hd0 v s2 hgen
    simp only [ADSR.generate, h2] at hgen
    by_cases hce : s.current_event = ADSREvent.NoteOff
    · rw [if_pos hce] at hgen
      rcases (map_eq_ok_iff _ _ _).mp hgen with ⟨v0, hok, hpair⟩
      injection hpair with hv hs2
      subst hs2
      show ADSR.next_phase s.retrigger ADSREvent.NoteOn = ADSRPhase.Sustain
      simp only [ADSR.next_phase, ADSR.retrigger, hat, hdt]
      norm_num
    · rw [if_neg hce] at hgen
      rcases (map_eq_ok_iff _ _ _).mp hgen with ⟨v0, hok, hpair⟩
      injection hpair with hv hs2
      subst hs2
      show ADSR.next_phase s ADSREvent.NoteOn = ADSRPhase.Sustain
      have hn : ¬ (s.note_on_duration / s.sample_rate < 0) := not_lt.mpr hd0
      simp only [ADSR.next_phase, hat, hdt, zero_add, if_neg hn]

/-- C2 witness: the NoteOn conjunct of the theorem at the concrete state
sAttack, where the computed phase is Attack. -/
theorem c2_witness :
    sAttack.next_event = ADSREvent.NoteOn
      ∧ sAttack.current_event = ADSREvent.NoteOn
      ∧ sAttack.generate = Except.ok (0, sAttackNext)
      ∧ sAttackNext.current_phase =
          (if sAttack.note_on_duration / sAttack.sample_rate
              < sAttack.params.attack_time then ADSRPhase.Attack
          else if sAttack.note_on_duration / sAttack.sample_rate
              < sAttack.params.attack_time + sAttack.params.decay_time then
            ADSRPhase.Decay
          else ADSRPhase.Sustain) :=
  ⟨rfl, rfl, sAttack_gen,
    (c2_phase_determination sAttack).1 rfl rfl 0 sAttackNext sAttack_gen⟩

/-- C5: when the current event is NoteOff and the pending event is NoteOn,
generate resets both duration counters to 0 before computing the new phase
and value: the whole call is indistinguishable from one made with both
counters already 0, the stored note_off_duration afterwards is 0, and the
stored phase is the one computed at the zeroed counters. -/
theorem c5_retrigger_resets (s : ADSR)
    (h1 : s.current_event = ADSREvent.NoteOff)
    (h2 : s.next_event = ADSREvent.NoteOn) :
    s.generate = ADSR.generate
        { s with note_on_duration := 0, note_off_duration := 0 }
      ∧ ∀ v s2, s.generate = Except.ok (v, s2) →
          s2.note_off_duration = 0
            ∧ s2.current_phase = ADSR.next_phase
                { s with note_on_duration := 0, note_off_duration := 0 }
                ADSREvent.NoteOn := by
  constructor
  · simp only [ADSR.generate, ADSR.retrigger, h2, h1, reduceIte]
  · intro v s2 hgen
    simp only [ADSR.generate, h2, h1, reduceIte] at hgen
    rcases (map_eq_ok_iff _ _ _).mp hgen with ⟨v0, hok, hpair⟩
    injection hpair with hv hs2
    subst hs2
    constructor
    · split_ifs <;> rfl
    · rfl

/-- C5 witness: the theorem applied to the concrete mid-release state
sRetr with stale counters 7 and 3. -/
theorem c5_witness :
    sRetr.current_event = ADSREvent.NoteOff
      ∧ sRetr.next_event = ADSREvent.NoteOn
      ∧ sRetr.generate = ADSR.generate
          { sRetr with note_on_duration := 0, note_off_duration := 0 } :=
  ⟨rfl, rfl, (c5_retrigger_resets sRetr rfl rfl).1⟩

/-- C6: on a generate call whose pending event is NoteOff, last_gate_val
is first set to current_val (the previous sample) when transitioning from
NoteOn, and whenever the computed phase is Release the returned value is
exactly curve_function(release_time - note_off_duration / sample_rate,
last_gate_val, release_time, release_curve) evaluated at that captured
level - not at 1.0 or sustain_level. -/
theorem c6_release_from_capture (s : ADSR) (v : ℝ) (s2 : ADSR)
    (h2 : s.next_event = ADSREvent.NoteOff)
    (hgen : s.generate = Except.ok (v, s2)) :
    s2.last_gate_val = (if s.current_event = ADSREvent.NoteOn then
        s.current_val else s.last_gate_val)
      ∧ (s2.current_phase = ADSRPhase.Release →
          ADSR.curve_function
            (s.params.release_time - s.note_off_duration / s.sample_rate)
            s2.last_gate_val s.params.release_time s.params.release_curve
            = Except.ok v) := by
  simp only [ADSR.generate, h2] at hgen
  by_cases hce : s.current_event = ADSREvent.NoteOn
  · rw [if_pos hce] at hgen
    rcases (map_eq_ok_iff _ _ _).mp hgen with ⟨v0, hok, hpair⟩
    injection hpair with hv hs2
    rw [hv] at hok
    have hlg : s2.last_gate_val = s.current_val := by
      rw [← hs2]
      split_ifs <;> rfl
    refine ⟨by rw [hlg, if_pos hce], ?_⟩
    intro hrel
    have hrel2 : ADSR.next_phase
        { s with last_gate_val := s.current_val,
                 next_event := ADSREvent.NoteOff } ADSREvent.NoteOff
        = ADSRPhase.Release := by
      rw [← hs2] at hrel
      exact hrel
    have hok2 : ADSR.next_val
        { s with last_gate_val := s.current_val,
                 next_event := ADSREvent.NoteOff } ADSRPhase.Release
        = Except.ok v := by
      rw [← hrel2]
      exact hok
    rw [hlg]
    simp only [ADSR.next_val] at hok2
    exact hok2
  · rw [if_neg hce] at hgen
    rcases (map_eq_ok_iff _ _ _).mp hgen with ⟨v0, hok, hpair⟩
    injection hpair with hv hs2
    rw [hv] at hok
    have hlg : s2.last_gate_val = s.last_gate_val := by
      rw [← hs2]
      split_ifs <;> rfl
    refine ⟨by rw [hlg, if_neg hce], ?_⟩
    intro hrel
    have hrel2 : ADSR.next_phase s ADSREvent.NoteOff = ADSRPhase.Release := by
      rw [← hs2] at hrel
      exact hrel
    have hok2 : ADSR.next_val s ADSRPhase.Release = Except.ok v := by
      rw [← hrel2]
      exact hok
    rw [hlg]
    simp only [ADSR.next_val] at hok2
    exact hok2

/-- C6 witness: the theorem at the concrete note-off step sRel, whose
value 1/4 held mid-decay is captured and becomes the release start
level. -/
theorem c6_witness :
    sRel.next_event = ADSREvent.NoteOff
      ∧ sRel.generate = Except.ok (1/4, sRelNext)
      ∧ sRelNext.last_gate_val = (if sRel.current_event = ADSREvent.NoteOn
          then sRel.current_val else sRel.last_gate_val)
      ∧ (sRelNext.current_phase = ADSRPhase.Release →
          ADSR.curve_function
            (sRel.params.release_time
              - sRel.note_off_duration / sRel.sample_rate)
            sRelNext.last_gate_val sRel.params.release_time
            sRel.params.release_curve = Except.ok (1/4)) := by
  obtain ⟨ha, hb⟩ := c6_release_from_capture sRel (1/4) sRelNext rfl sRel_gen
  exact ⟨rfl, sRel_gen, ha, hb⟩

/-- C9: once a held NoteOn has reached the Sustain phase (its recomputed
phase is Sustain), a further generate call with pending NoteOn returns
exactly sustain_level, stores phase Sustain, does not retrigger, and
leaves the state again satisfying all these conditions, so every further
call repeats the same output. -/
theorem c9_sustain_idempotent (s : ADSR)
    (h1 : s.current_event = ADSREvent.NoteOn)
    (h2 : s.next_event = ADSREvent.NoteOn)
    (h3 : s.next_phase ADSREvent.NoteOn = ADSRPhase.Sustain)
    (h4 : 0 < s.sample_rate) (h5 : 0 ≤ s.note_on_duration) :
    ∃ s2, s.generate = Except.ok (s.params.sustain_level, s2)
      ∧ s2.current_phase = ADSRPhase.Sustain
      ∧ s2.current_event = ADSREvent.NoteOn
      ∧ s2.next_event = ADSREvent.NoteOn
      ∧ s2.params.sustain_level = s.params.sustain_level
      ∧ 0 < s2.sample_rate ∧ 0 ≤ s2.note_on_duration
      ∧ s2.next_phase ADSREvent.NoteOn = ADSRPhase.Sustain := by
  have h1n : ¬ (s.current_event = ADSREvent.NoteOff) := by
    rw [h1]
    simp
  simp only [ADSR.generate, h2, if_neg h1n, h3, ADSR.next_val, Except.map]
  by_cases hph : s.current_phase = ADSRPhase.Sustain
  · rw [if_neg (not_not_intro hph)]
    exact ⟨_, rfl, rfl, rfl, h2, rfl, h4, h5, h3⟩
  · rw [if_pos hph]
    refine ⟨_, rfl, rfl, rfl, rfl, rfl, h4,
      show (0 : ℝ) ≤ s.note_on_duration + 1 by linarith, ?_⟩
    simp only [ADSR.next_phase] at h3 ⊢
    have hle : s.note_on_duration / s.sample_rate
        ≤ (s.note_on_duration + 1) / s.sample_rate := by
      gcongr
      linarith
    by_cases ha : s.note_on_duration / s.sample_rate < s.params.attack_time
    · rw [if_pos ha] at h3
      exact absurd h3 (by simp)
    · rw [if_neg ha] at h3
      by_cases hb : s.note_on_duration / s.sample_rate
          < s.params.decay_time + s.params.attack_time
      · rw [if_pos hb] at h3
        exact absurd h3 (by simp)
      · rw [if_neg (not_lt.mpr (le_trans (not_lt.mp ha) hle)),
          if_neg (not_lt.mpr (le_trans (not_lt.mp hb) hle))]

/-- C9 witness: the theorem at the concrete sustained state sSustain. -/
theorem c9_witness :
    sSustain.current_event = ADSREvent.NoteOn
      ∧ sSustain.next_event = ADSREvent.NoteOn
      ∧ sSustain.next_phase ADSREvent.NoteOn = ADSRPhase.Sustain
      ∧ (0 : ℝ) < sSustain.sample_rate
      ∧ ∃ s2, sSustain.generate
            = Except.ok (sSustain.params.sustain_level, s2)
          ∧ s2.current_phase = ADSRPhase.Sustain
          ∧ s2.current_event = ADSREvent.NoteOn
          ∧ s2.next_event = ADSREvent.NoteOn
          ∧ s2.params.sustain_level = sSustain.params.sustain_level
          ∧ 0 < s2.sample_rate ∧ 0 ≤ s2.note_on_duration
          ∧ s2.next_phase ADSREvent.NoteOn = ADSRPhase.Sustain := by
  refine ⟨rfl, rfl, sSustain_phase, by norm_num [sSustain], ?_⟩
  exact c9_sustain_idempotent sSustain rfl rfl sSustain_phase
    (by norm_num [sSustain]) (by norm_num [sSustain])

/-- C7: in every generate call, note_on_duration grows by one only when
the cached phase is not Sustain (and is reset, not grown, on retrigger),
and note_off_duration grows by one only when the cached phase is not
Silence; moreover a held NoteOn only ever yields Attack, Decay or Sustain
(never a phase past Sustain) and a held NoteOff only Release or
Silence. -/
theorem c7_duration_increment_policy (s : ADSR) (v : ℝ) (s2 : ADSR)
    (hgen : s.generate = Except.ok (v, s2)) :
    (s.next_event = ADSREvent.NoteOn →
        s2.note_on_duration
            = (if s.current_event = ADSREvent.NoteOff then 0
                else s.note_on_duration)
              + (if s.current_phase = ADSRPhase.Sustain then 0 else 1)
          ∧ s2.note_off_duration
            = (if s.current_event = ADSREvent.NoteOff then 0
                else s.note_off_duration)
          ∧ (s2.current_phase = ADSRPhase.Attack
              ∨ s2.current_phase = ADSRPhase.Decay
              ∨ s2.current_phase = ADSRPhase.Sustain))
      ∧ (s.next_event = ADSREvent.NoteOff →
          s2.note_off_duration
              = s.note_off_duration
                + (if s.current_phase = ADSRPhase.Silence then 0 else 1)
            ∧ s2.note_on_duration = s.note_on_duration
            ∧ (s2.current_phase = ADSRPhase.Release
                ∨ s2.current_phase = ADSRPhase.Silence)) := by
  constructor
  · intro h2
    simp only [ADSR.generate, ADSR.retrigger, h2] at hgen
    by_cases hce : s.current_event = ADSREvent.NoteOff
    · rw [if_pos hce] at hgen
      rcases (map_eq_ok_iff _ _ _).mp hgen with ⟨v0, hok, hpair⟩
      injection hpair with hv hs2
      refine ⟨?_, ?_, ?_⟩
      · rw [← hs2, if_pos hce]
        by_cases hph : s.current_phase = ADSRPhase.Sustain
        · rw [if_neg (not_not_intro hph), if_pos hph]
          simp
        · rw [if_pos hph, if_neg hph]
      · rw [← hs2, if_pos hce]
        split_ifs <;> rfl
      · rw [← hs2]
        show ADSR.next_phase _ ADSREvent.NoteOn = _ ∨ _ ∨ _
        simp only [ADSR.next_phase]
        split_ifs <;> simp
    · rw [if_neg hce] at hgen
      rcases (map_eq_ok_iff _ _ _).mp hgen with ⟨v0, hok, hpair⟩
      injection hpair with hv hs2
      refine ⟨?_, ?_, ?_⟩
      · rw [← hs2, if_neg hce]
        by_cases hph : s.current_phase = ADSRPhase.Sustain
        · rw [if_neg (not_not_intro hph), if_pos hph]
          simp
        · rw [if_pos hph, if_neg hph]
      · rw [← hs2, if_neg hce]
        split_ifs <;> rfl
      · rw [← hs2]
        show ADSR.next_phase _ ADSREvent.NoteOn = _ ∨ _ ∨ _
        simp only [ADSR.next_phase]
        split_ifs <;> simp
  · intro h2
    simp only [ADSR.generate, h2] at hgen
    by_cases hce : s.current_event = ADSREvent.NoteOn
    · rw [if_pos hce] at hgen
      rcases (map_eq_ok_iff _ _ _).mp hgen with ⟨v0, hok, hpair⟩
      injection hpair with hv hs2
      refine ⟨?_, ?_, ?_⟩
      · rw [← hs2]
        by_cases hph : s.current_phase = ADSRPhase.Silence
        · rw [if_neg (not_not_intro hph), if_pos hph]
          simp
        · rw [if_pos hph, if_neg hph]
      · rw [← hs2]
        split_ifs <;> rfl
      · rw [← hs2]
        show ADSR.next_phase _ ADSREvent.NoteOff = _ ∨ _
        simp only [ADSR.next_phase]
        split_ifs <;> simp
    · rw [if_neg hce] at hgen
      rcases (map_eq_ok_iff _ _ _).mp hgen with ⟨v0, hok, hpair⟩
      injection hpair with hv hs2
      refine ⟨?_, ?_, ?_⟩
      · rw [← hs2]
        by_cases hph : s.current_phase = ADSRPhase.Silence
        · rw [if_neg (not_not_intro hph), if_pos hph]
          simp
        · rw [if_pos hph, if_neg hph]
      · rw [← hs2]
        split_ifs <;> rfl
      · rw [← hs2]
        show ADSR.next_phase _ ADSREvent.NoteOff = _ ∨ _
        simp only [ADSR.next_phase]
        split_ifs <;> simp

/-- C7 witness: the theorem at the concrete attack step sAttack, where a
held NoteOn increments note_on_duration from 0 to 1. -/
theorem c7_witness :
    sAttack.generate = Except.ok (0, sAttackNext)
      ∧ sAttack.next_event = ADSREvent.NoteOn
      ∧ sAttackNext.note_on_duration
          = (if sAttack.current_event = ADSREvent.NoteOff then 0
              else sAttack.note_on_duration)
            + (if sAttack.current_phase = ADSRPhase.Sustain then 0 else 1)
      ∧ sAttackNext.note_off_duration
          = (if sAttack.current_event = ADSREvent.NoteOff then 0
              else sAttack.note_off_duration)
      ∧ (sAttackNext.current_phase = ADSRPhase.Attack
          ∨ sAttackNext.current_phase = ADSRPhase.Decay
          ∨ sAttackNext.current_phase = ADSRPhase.Sustain) := by
  obtain ⟨ha, hb, hc⟩ :=
    (c7_duration_increment_policy sAttack 0 sAttackNext sAttack_gen).1 rfl
  exact ⟨sAttack_gen, rfl, ha, hb, hc⟩

end AdsrRs
